import Mathlib

set_option linter.unusedVariables false

/-!
Verification of the cosmos-toolpay provider SDK (TypeScript) against its
natural-language specification.

The SDK under `packages/provider-sdk` is a thin client for two CosmWasm
contracts (Registry and Escrow).  The client code is pure message
construction plus post-processing of transaction results, so it embeds
directly: each client method becomes a Lean function that takes the client
state and the chain response as explicit arguments and returns either the
error it throws or the message it dispatches together with the value it
returns.  JavaScript-specific behaviour (string truthiness, `parseInt`
into an IEEE-754 double, `String.prototype.includes`) is modelled
explicitly below.
-/

/-! ## JavaScript string and number primitives -/

/-- Model of `startsWith` on character lists: `startsWithL needle hay`
is true when `hay` begins with `needle`. -/
def startsWithL : List Char → List Char → Bool
  | [], _ => true
  | _ :: _, [] => false
  | a :: as, b :: bs => a == b && startsWithL as bs

/-- `containsAux needle hay`: `hay` has a contiguous sublist `needle`. -/
def containsAux (needle : List Char) : List Char → Bool
  | [] => needle.isEmpty
  | c :: rest => startsWithL needle (c :: rest) || containsAux needle rest

/-- Model of JavaScript `s.includes(search)`: the search string occurs
contiguously inside `s` (the empty search string always occurs). -/
def includes (s search : String) : Bool :=
  containsAux search.data s.data

/-- Numeric value of a string of decimal digits, most significant first. -/
def digitsToNat (s : String) : Nat :=
  s.data.foldl (fun n c => n * 10 + (c.toNat - 48)) 0

/-- Floor of the base-2 logarithm, computed with an explicit fuel
argument so that it reduces definitionally; `log2floor n n` is the usual
`log2` for every `n`, since the value halves at each of the at most `n`
steps. -/
def log2floor : Nat → Nat → Nat
  | 0, _ => 0
  | fuel + 1, n => if 2 ≤ n then log2floor fuel (n / 2) + 1 else 0

/-- Rounding of a natural number to the nearest IEEE-754 double
(binary64, 53-bit significand, round to nearest, ties to even), for
numbers far below the overflow threshold.  Integers up to `2 ^ 53` are
exact; above that the low bits are rounded away. -/
def roundToDouble (n : Nat) : Nat :=
  if n ≤ 2 ^ 53 then n
  else
    let e := log2floor n n - 52
    let q := n / 2 ^ e
    let r := n % 2 ^ e
    let h := 2 ^ (e - 1)
    let q2 := if r > h || (r == h && q % 2 == 1) then q + 1 else q
    q2 * 2 ^ e

/-- Model of JavaScript `parseInt(s)` restricted to the inputs the
properties below need: for a nonempty string of decimal digits it returns
the denoted integer converted to a double (`roundToDouble`); every other
string is mapped to `none`, standing for `NaN`.  (The whitespace, sign,
radix-prefix and trailing-garbage cases of `parseInt` never arise in the
claims, whose attribute values are decimal digit strings.) -/
def parseIntJs (s : String) : Option Nat :=
  if !s.data.isEmpty && s.data.all Char.isDigit then
    some (roundToDouble (digitsToNat s))
  else
    none

/-! ## Data model of the client layer

`Uint128` amounts travel as strings (`types/common.ts`).  A client wraps a
CosmWasm client that either has an `execute` member (signing) or not; the
only property of it the SDK inspects before dispatch is that membership
test, so the client state is that one bit. -/

/-- Client state: whether the wrapped CosmWasm client has an `execute`
member, i.e. is a `SigningCosmWasmClient`. -/
structure ClientState where
  hasExecute : Bool
deriving DecidableEq, Repr

/-- One attribute of a transaction event. -/
structure EventAttribute where
  key : String
  value : String
deriving DecidableEq, Repr

/-- One event of a transaction result. -/
structure TxEvent where
  type : String
  attributes : List EventAttribute
deriving DecidableEq, Repr

/-- The part of a CosmWasm `ExecuteResult` the SDK reads. -/
structure ExecuteResult where
  transactionHash : String
  events : List TxEvent
deriving DecidableEq, Repr

/-- `EscrowExecuteMsg` (`types/escrow.ts`), as constructed by
`EscrowClient`: the four execute variants of the Escrow contract.
`claim_fees none` is the JSON `\x7bclaim_fees: \x7b\x7d\x7d` requesting
every denomination. -/
inductive EscrowExecuteMsg where
  | lock_funds (tool_id : String) (max_fee : String) (auth_token : String) (expires : Nat)
  | release (escrow_id : Nat) (usage_fee : String)
  | refund_expired (escrow_id : Nat)
  | claim_fees (denom : Option String)
deriving DecidableEq, Repr

/-- `RegistryExecuteMsg` (`types/registry.ts`), as constructed by
`RegistryClient`. -/
inductive RegistryExecuteMsg where
  | register_tool (tool_id : String) (price : String)
  | update_price (tool_id : String) (price : String)
  | pause_tool (tool_id : String)
  | resume_tool (tool_id : String)
deriving DecidableEq, Repr

/-- `ToolResponse` (`types/registry.ts`). -/
structure ToolResponse where
  tool_id : String
  provider : String
  price : String
  denom : String
  is_active : Bool
  description : String
deriving DecidableEq, Repr

/-- `LockFundsResult` (`EscrowClient.ts`).  `escrowId` is a JavaScript
number, so it is an `Option Nat` here with `none` standing for `NaN`. -/
structure LockFundsResult where
  transactionHash : String
  escrowId : Option Nat
  denom : Option String
deriving DecidableEq, Repr

/-! ## EscrowClient -/

namespace EscrowClient

/-- `getSigningClient` (`EscrowClient.ts` line 75): throws unless the
wrapped client has an `execute` member. -/
def getSigningClient (c : ClientState) : Except String Unit :=
  if c.hasExecute then Except.ok () else
    Except.error "This method requires a signing client"

/-- Body of the attribute loop of `lockFunds` (lines 129-136): two
independent conditionals assigning `escrowId` and `denom`. -/
def attrStep (acc : Option Nat × Option String) (attr : EventAttribute) :
    Option Nat × Option String :=
  let acc2 := if attr.key == "escrow_id" then (parseIntJs attr.value, acc.2) else acc
  if attr.key == "denom" then (acc2.1, some attr.value) else acc2

/-- Body of the event loop of `lockFunds` (lines 127-138): only events of
type `wasm` have their attributes scanned. -/
def eventStep (acc : Option Nat × Option String) (ev : TxEvent) :
    Option Nat × Option String :=
  if ev.type == "wasm" then ev.attributes.foldl attrStep acc else acc

/-- The event-scanning loop of `lockFunds` (lines 123-138): initial state
`escrowId = 0`, `denom = undefined`; every attribute of every event of
type `wasm` is visited in order. -/
def extractLockResult (events : List TxEvent) : Option Nat × Option String :=
  events.foldl eventStep (some 0, none)

/-- The message built by `lockFunds` (lines 105-112). -/
def lockFundsMsg (toolId maxFee authToken : String) (expires : Nat) : EscrowExecuteMsg :=
  EscrowExecuteMsg.lock_funds toolId maxFee authToken expires

/-- `lockFunds` (lines 94-145).  The chain is an oracle: the
`ExecuteResult` the signing client would return is an argument, and the
dispatched message is returned alongside the method result so that the
wire format is observable. -/
def lockFunds (c : ClientState) (senderAddress toolId maxFee authToken : String)
    (expires : Nat) (result : ExecuteResult) :
    Except String (EscrowExecuteMsg × LockFundsResult) :=
  match getSigningClient c with
  | Except.error e => Except.error e
  | Except.ok _ =>
    let msg := lockFundsMsg toolId maxFee authToken expires
    let st := extractLockResult result.events
    Except.ok (msg, ⟨result.transactionHash, st.1, st.2⟩)

/-- `releaseFunds` (lines 157-183): builds
`release \x7bescrow_id, usage_fee\x7d` and returns the transaction hash. -/
def releaseFunds (c : ClientState) (senderAddress : String) (escrowId : Nat)
    (usageFee : String) (result : ExecuteResult) :
    Except String (EscrowExecuteMsg × String) :=
  match getSigningClient c with
  | Except.error e => Except.error e
  | Except.ok _ =>
    Except.ok (EscrowExecuteMsg.release escrowId usageFee, result.transactionHash)

/-- `refundExpired` (lines 194-218): builds
`refund_expired \x7bescrow_id\x7d` and returns the transaction hash. -/
def refundExpired (c : ClientState) (senderAddress : String) (escrowId : Nat)
    (result : ExecuteResult) : Except String (EscrowExecuteMsg × String) :=
  match getSigningClient c with
  | Except.error e => Except.error e
  | Except.ok _ =>
    Except.ok (EscrowExecuteMsg.refund_expired escrowId, result.transactionHash)

/-- The message built by `claimFees` (line 249):
`claim_fees: denom ? \x7b denom \x7d : \x7b\x7d`.  JavaScript truthiness:
an absent denom and the empty string are both falsy, so both produce the
claim-all message. -/
def claimFeesMsg (denom : Option String) : EscrowExecuteMsg :=
  match denom with
  | some d => if d == "" then EscrowExecuteMsg.claim_fees none
              else EscrowExecuteMsg.claim_fees (some d)
  | none => EscrowExecuteMsg.claim_fees none

/-- `claimFees` (lines 240-262). -/
def claimFees (c : ClientState) (senderAddress : String) (denom : Option String)
    (result : ExecuteResult) : Except String (EscrowExecuteMsg × String) :=
  match getSigningClient c with
  | Except.error e => Except.error e
  | Except.ok _ =>
    Except.ok (claimFeesMsg denom, result.transactionHash)

end EscrowClient

/-! ## RegistryClient -/

namespace RegistryClient

/-- `getSigningClient` (`RegistryClient.ts` line 78): same guard as on the
escrow side. -/
def getSigningClient (c : ClientState) : Except String Unit :=
  if c.hasExecute then Except.ok () else
    Except.error "This method requires a signing client"

/-- Outcome of the underlying `queryContractSmart` call inside `getTool`:
a response value (an object, or something invalid such as `null`), or a
thrown `Error` with a message, or a thrown non-`Error` value whose string
conversion is recorded. -/
inductive QueryOutcome where
  | success (r : ToolResponse)
  | invalid
  | failure (errMessage : String)
  | failureNonError (str : String)
deriving DecidableEq, Repr

/-- `getTool` (lines 46-70).  The shape check throws inside the `try`
block, so its error also flows through the `catch` normalization; its
message contains neither `not found` nor `No such tool`, so it is
rethrown as is. -/
def getTool (toolId : String) (outcome : QueryOutcome) : Except String ToolResponse :=
  match outcome with
  | QueryOutcome.success r => Except.ok r
  | QueryOutcome.invalid => Except.error "Invalid response from registry contract"
  | QueryOutcome.failure m =>
    if includes m "not found" || includes m "No such tool" then
      Except.error ("Tool \x27" ++ toolId ++ "\x27 not found in registry")
    else
      Except.error m
  | QueryOutcome.failureNonError s => Except.error ("Failed to query tool: " ++ s)

/-- `registerTool` (lines 94-119). -/
def registerTool (c : ClientState) (senderAddress toolId price : String)
    (result : ExecuteResult) : Except String (RegistryExecuteMsg × String) :=
  match getSigningClient c with
  | Except.error e => Except.error e
  | Except.ok _ =>
    Except.ok (RegistryExecuteMsg.register_tool toolId price, result.transactionHash)

/-- `updatePrice` (lines 130-155). -/
def updatePrice (c : ClientState) (senderAddress toolId price : String)
    (result : ExecuteResult) : Except String (RegistryExecuteMsg × String) :=
  match getSigningClient c with
  | Except.error e => Except.error e
  | Except.ok _ =>
    Except.ok (RegistryExecuteMsg.update_price toolId price, result.transactionHash)

/-- `pauseTool` (lines 165-188). -/
def pauseTool (c : ClientState) (senderAddress toolId : String)
    (result : ExecuteResult) : Except String (RegistryExecuteMsg × String) :=
  match getSigningClient c with
  | Except.error e => Except.error e
  | Except.ok _ =>
    Except.ok (RegistryExecuteMsg.pause_tool toolId, result.transactionHash)

/-- `resumeTool` (lines 198-221). -/
def resumeTool (c : ClientState) (senderAddress toolId : String)
    (result : ExecuteResult) : Except String (RegistryExecuteMsg × String) :=
  match getSigningClient c with
  | Except.error e => Except.error e
  | Except.ok _ =>
    Except.ok (RegistryExecuteMsg.resume_tool toolId, result.transactionHash)

end RegistryClient

/-! ## Error normalization (`utils/errors.ts`) -/

/-- A `PayPerToolError` instance: the subclasses differ only in `name`
and `code`, so one structure covers all of them. -/
structure PayPerToolError where
  name : String
  message : String
  code : String
deriving DecidableEq, Repr

/-- The aspects of an arbitrary JavaScript value `normalizeError`
inspects: whether it is (an instance of) `PayPerToolError`, and otherwise
whether it is an object with a string `message` property. -/
inductive JsValue where
  | pptError (e : PayPerToolError)
  | errWithMessage (message : String)
  | noMessage
deriving DecidableEq, Repr

/-- `normalizeError` (`errors.ts` lines 89-125).  The TypeScript default
for `defaultMessage` is the string `Unknown error`; here the parameter is
always passed explicitly. -/
def normalizeError (error : JsValue) (defaultMessage : String) : PayPerToolError :=
  match error with
  | JsValue.pptError e => e
  | _ =>
    let message := match error with
      | JsValue.errWithMessage m => m
      | _ => defaultMessage
    if includes message "network" || includes message "connection" ||
        includes message "timeout" then
      ⟨"NetworkError", message, "NETWORK_ERROR"⟩
    else if includes message "wallet" || includes message "signer" ||
        includes message "account" then
      ⟨"WalletError", message, "WALLET_ERROR"⟩
    else if includes message "contract" || includes message "execute" ||
        includes message "query" then
      ⟨"ContractError", message, "CONTRACT_ERROR"⟩
    else
      ⟨"PayPerToolError", message, "UNKNOWN_ERROR"⟩

/-- The string `message` of a `JsValue`, when it has one. -/
def jsMessage : JsValue → Option String
  | JsValue.pptError e => some e.message
  | JsValue.errWithMessage m => some m
  | JsValue.noMessage => none

/-! ## Release fee split -/

/-- Modelled from the spec: the Escrow contract (CosmWasm, Rust) is not
part of the SDK sources; only its TypeScript callers are under version
control here.  Per spec section 3 invariant 4, the Release operation
computes `protocol_fee = floor(usage_fee * fee_percentage / 100)`. -/
def protocolFee (usageFee feePercentage : Nat) : Nat :=
  usageFee * feePercentage / 100

/-- Modelled from the spec: `provider_amount = usage_fee - protocol_fee`
(Release operation of the missing Escrow contract). -/
def providerAmount (usageFee feePercentage : Nat) : Nat :=
  usageFee - protocolFee usageFee feePercentage

/-- Modelled from the spec: `caller_refund = ceiling_fee - usage_fee`
(Release operation of the missing Escrow contract). -/
def callerRefund (ceilingFee usageFee : Nat) : Nat :=
  ceilingFee - usageFee

/-! ## Characterization of the lockFunds attribute scan

`lastVal key attrs` is the value of the last attribute named `key`, the
quantity the assignment loop of `lockFunds` leaves behind. -/

/-- Value of the last attribute with the given key, if any. -/
def lastVal (key : String) : List EventAttribute → Option String
  | [] => none
  | a :: rest =>
    match lastVal key rest with
    | some v => some v
    | none => if a.key == key then some a.value else none

/-- The attributes of the events of type `wasm`, concatenated in event
order. -/
def wasmAttrs : List TxEvent → List EventAttribute
  | [] => []
  | e :: rest => (if e.type == "wasm" then e.attributes else []) ++ wasmAttrs rest

namespace EscrowClient

theorem attrStep_fst_escrow (acc : Option Nat × Option String) (a : EventAttribute)
    (h : (a.key == "escrow_id") = true) : (attrStep acc a).1 = parseIntJs a.value := by
  have hk : a.key = "escrow_id" := by simpa using h
  simp [attrStep, hk]

theorem attrStep_fst_other (acc : Option Nat × Option String) (a : EventAttribute)
    (h : (a.key == "escrow_id") = false) : (attrStep acc a).1 = acc.1 := by
  by_cases hd : a.key = "denom" <;> simp [attrStep, h, hd]

theorem attrStep_snd_denom (acc : Option Nat × Option String) (a : EventAttribute)
    (h : (a.key == "denom") = true) : (attrStep acc a).2 = some a.value := by
  have hk : a.key = "denom" := by simpa using h
  simp [attrStep, hk]

theorem attrStep_snd_other (acc : Option Nat × Option String) (a : EventAttribute)
    (h : (a.key == "denom") = false) : (attrStep acc a).2 = acc.2 := by
  by_cases he : a.key = "escrow_id" <;> simp [attrStep, h, he]

/-- After folding the attribute loop, `escrowId` holds the parse of the
last `escrow_id` value, or its initial value if none occurred. -/
theorem foldl_attrStep_fst (attrs : List EventAttribute) :
    ∀ acc : Option Nat × Option String,
      (attrs.foldl attrStep acc).1 =
        match lastVal "escrow_id" attrs with
        | some v => parseIntJs v
        | none => acc.1 := by
  induction attrs with
  | nil => intro acc; simp [lastVal]
  | cons a rest ih =>
    intro acc
    rw [List.foldl_cons, ih]
    cases hrest : lastVal "escrow_id" rest with
    | some v => simp [lastVal, hrest]
    | none =>
      cases hk : (a.key == "escrow_id") with
      | true =>
        simp only [lastVal, hrest]
        simp [hk, attrStep_fst_escrow acc a hk]
      | false =>
        simp only [lastVal, hrest]
        simp [hk, attrStep_fst_other acc a hk]

/-- After folding the attribute loop, `denom` holds the last `denom`
value, or its initial value if none occurred. -/
theorem foldl_attrStep_snd (attrs : List EventAttribute) :
    ∀ acc : Option Nat × Option String,
      (attrs.foldl attrStep acc).2 =
        match lastVal "denom" attrs with
        | some v => some v
        | none => acc.2 := by
  induction attrs with
  | nil => intro acc; simp [lastVal]
  | cons a rest ih =>
    intro acc
    rw [List.foldl_cons, ih]
    cases hrest : lastVal "denom" rest with
    | some v => simp [lastVal, hrest]
    | none =>
      cases hk : (a.key == "denom") with
      | true =>
        simp only [lastVal, hrest]
        simp [hk, attrStep_snd_denom acc a hk]
      | false =>
        simp only [lastVal, hrest]
        simp [hk, attrStep_snd_other acc a hk]

theorem eventStep_wasm (acc : Option Nat × Option String) (e : TxEvent)
    (h : (e.type == "wasm") = true) :
    eventStep acc e = e.attributes.foldl attrStep acc := by
  simp [eventStep, h]

theorem eventStep_other (acc : Option Nat × Option String) (e : TxEvent)
    (h : (e.type == "wasm") = false) : eventStep acc e = acc := by
  simp [eventStep, h]

/-- The nested event/attribute loops visit exactly the `wasm` attributes
in order. -/
theorem extract_eq_foldl_wasmAttrs (events : List TxEvent) :
    ∀ acc : Option Nat × Option String,
      events.foldl eventStep acc = (wasmAttrs events).foldl attrStep acc := by
  induction events with
  | nil => intro acc; simp [wasmAttrs]
  | cons e rest ih =>
    intro acc
    rw [List.foldl_cons]
    cases ht : (e.type == "wasm") with
    | true =>
      rw [eventStep_wasm acc e ht]
      have hw : wasmAttrs (e :: rest) = e.attributes ++ wasmAttrs rest := by
        simp [wasmAttrs, ht]
      rw [hw, List.foldl_append]
      exact ih _
    | false =>
      rw [eventStep_other acc e ht]
      have hw : wasmAttrs (e :: rest) = wasmAttrs rest := by
        simp [wasmAttrs, ht]
      rw [hw]
      exact ih _

/-- `extractLockResult`, fully characterized. -/
theorem extractLockResult_eq (events : List TxEvent) :
    extractLockResult events =
      ((match lastVal "escrow_id" (wasmAttrs events) with
        | some v => parseIntJs v
        | none => some 0),
       lastVal "denom" (wasmAttrs events)) := by
  unfold extractLockResult
  rw [extract_eq_foldl_wasmAttrs]
  have h1 := foldl_attrStep_fst (wasmAttrs events) (some 0, none)
  have h2 := foldl_attrStep_snd (wasmAttrs events) (some 0, none)
  cases hfst : lastVal "escrow_id" (wasmAttrs events) <;>
    cases hsnd : lastVal "denom" (wasmAttrs events) <;>
    · rw [hfst] at h1; rw [hsnd] at h2
      exact Prod.ext h1 h2

end EscrowClient

/-! ## Shared lemmas linking the filter view to the loop view -/

/-- If no attribute has the key, the loop leaves its accumulator
untouched. -/
theorem lastVal_none_of_filter_nil (key : String) (attrs : List EventAttribute)
    (h : attrs.filter (fun a => a.key == key) = []) : lastVal key attrs = none := by
  induction attrs with
  | nil => rfl
  | cons a rest ih =>
    rw [List.filter_cons] at h
    cases hk : (a.key == key) with
    | true => rw [hk] at h; simp at h
    | false =>
      rw [hk] at h
      simp only [Bool.false_eq_true, if_false] at h
      simp [lastVal, ih h, hk]

/-- If exactly one attribute has the key, the last value with that key is
its value. -/
theorem lastVal_of_filter (key : String) (attrs : List EventAttribute)
    (a0 : EventAttribute) (h : attrs.filter (fun a => a.key == key) = [a0]) :
    lastVal key attrs = some a0.value := by
  induction attrs with
  | nil => simp at h
  | cons a rest ih =>
    rw [List.filter_cons] at h
    cases hk : (a.key == key) with
    | true =>
      rw [hk] at h
      simp only [if_true, List.cons_eq_cons] at h
      obtain ⟨ha, hrest⟩ := h
      subst ha
      simp [lastVal, lastVal_none_of_filter_nil key rest hrest, hk]
    | false =>
      rw [hk] at h
      simp only [Bool.false_eq_true, if_false] at h
      have hrest := ih h
      simp [lastVal, hrest]

/-! ## Claims -/

/-- C1: for every usage fee and ceiling fee with usage_fee ≤ ceiling_fee
and every fee percentage between 0 and 100, the Release split
`protocol_fee = floor(usage_fee * fee_percentage / 100)`,
`provider_amount = usage_fee - protocol_fee`,
`caller_refund = ceiling_fee - usage_fee` sums back to the ceiling fee
exactly; and on the spec scenario (ceiling 1000000, percentage 10, usage
600000) the provider receives 540000, the fee pool 60000 and the caller
400000. -/
theorem claim_C1 (usageFee ceilingFee feePercentage : Nat)
    (hu : usageFee ≤ ceilingFee) (hp : feePercentage ≤ 100) :
    providerAmount usageFee feePercentage + protocolFee usageFee feePercentage
        + callerRefund ceilingFee usageFee = ceilingFee
    ∧ providerAmount 600000 10 = 540000
    ∧ protocolFee 600000 10 = 60000
    ∧ callerRefund 1000000 600000 = 400000 := by
  refine ⟨?_, by norm_num [providerAmount, protocolFee],
    by norm_num [protocolFee], by norm_num [callerRefund]⟩
  have h1 : usageFee * feePercentage ≤ usageFee * 100 :=
    Nat.mul_le_mul_left usageFee hp
  have hle : protocolFee usageFee feePercentage ≤ usageFee := by
    unfold protocolFee
    omega
  unfold providerAmount callerRefund
  omega

theorem claim_C1_witness :
    (600000 ≤ 1000000 ∧ (10 : Nat) ≤ 100)
    ∧ (providerAmount 600000 10 + protocolFee 600000 10
          + callerRefund 1000000 600000 = 1000000
       ∧ providerAmount 600000 10 = 540000
       ∧ protocolFee 600000 10 = 60000
       ∧ callerRefund 1000000 600000 = 400000) :=
  ⟨⟨by norm_num, by norm_num⟩,
   claim_C1 600000 1000000 10 (by norm_num) (by norm_num)⟩

/-- C2: a successful lockFunds whose transaction result carries exactly
one wasm `escrow_id` attribute (value `s`) and exactly one wasm `denom`
attribute (value `d`) returns a `LockFundsResult` whose `escrowId` is the
parsed `s` and whose `denom` is `d`, together with the transaction hash,
so the caller can correlate the result without a follow-up query. -/
theorem claim_C2 (c : ClientState) (sender toolId maxFee authToken : String)
    (expires : Nat) (res : ExecuteResult) (s d : String)
    (hc : c.hasExecute = true)
    (hs : (wasmAttrs res.events).filter (fun a => a.key == "escrow_id")
        = [⟨"escrow_id", s⟩])
    (hd : (wasmAttrs res.events).filter (fun a => a.key == "denom")
        = [⟨"denom", d⟩]) :
    EscrowClient.lockFunds c sender toolId maxFee authToken expires res =
      Except.ok (EscrowClient.lockFundsMsg toolId maxFee authToken expires,
        ⟨res.transactionHash, parseIntJs s, some d⟩) := by
  have h1 := lastVal_of_filter "escrow_id" (wasmAttrs res.events) ⟨"escrow_id", s⟩ hs
  have h2 := lastVal_of_filter "denom" (wasmAttrs res.events) ⟨"denom", d⟩ hd
  simp [EscrowClient.lockFunds, EscrowClient.getSigningClient, hc,
    EscrowClient.extractLockResult_eq, h1, h2]

theorem claim_C2_witness :
    EscrowClient.lockFunds ⟨true⟩ "alice" "tool1" "1000000" "tok" 5
        ⟨"HASH", [⟨"wasm", [⟨"escrow_id", "7"⟩, ⟨"denom", "untrn"⟩]⟩]⟩ =
      Except.ok (EscrowClient.lockFundsMsg "tool1" "1000000" "tok" 5,
        ⟨"HASH", parseIntJs "7", some "untrn"⟩) :=
  claim_C2 ⟨true⟩ "alice" "tool1" "1000000" "tok" 5
    ⟨"HASH", [⟨"wasm", [⟨"escrow_id", "7"⟩, ⟨"denom", "untrn"⟩]⟩]⟩
    "7" "untrn" rfl (by decide) (by decide)

/-- C3 fails as stated: `lockFunds` parses the `escrow_id` attribute with
`parseInt` into a JavaScript number (IEEE-754 double), which is lossy for
64-bit values above `2 ^ 53`.  At the u64 value `9007199254740993`
(`2 ^ 53 + 1`) the returned `escrowId` is `9007199254740992`. -/
theorem claim_C3_counterexample :
    9007199254740993 < 2 ^ 64
    ∧ digitsToNat "9007199254740993" = 9007199254740993
    ∧ EscrowClient.lockFunds ⟨true⟩ "alice" "tool1" "1" "tok" 5
        ⟨"HASH", [⟨"wasm", [⟨"escrow_id", "9007199254740993"⟩]⟩]⟩ =
      Except.ok (EscrowClient.lockFundsMsg "tool1" "1" "tok" 5,
        ⟨"HASH", some 9007199254740992, none⟩)
    ∧ (9007199254740992 : Nat) ≠ 9007199254740993 := by
  refine ⟨by norm_num, rfl, rfl, by norm_num⟩

/-- C3 (amended): for every escrow identifier value at most `2 ^ 53`, a
successful lockFunds call whose single wasm `escrow_id` attribute is a
decimal digit string denoting that value returns an `escrowId` exactly
equal to that value; above `2 ^ 53` the `parseInt` conversion to a double
may round. -/
theorem claim_C3_amended (n : Nat) (s : String) (c : ClientState)
    (sender toolId maxFee authToken : String) (expires : Nat) (res : ExecuteResult)
    (hc : c.hasExecute = true)
    (hn : n ≤ 2 ^ 53)
    (hs1 : s.data.isEmpty = false)
    (hs2 : s.data.all Char.isDigit = true)
    (hval : digitsToNat s = n)
    (hfilter : (wasmAttrs res.events).filter (fun a => a.key == "escrow_id")
        = [⟨"escrow_id", s⟩]) :
    ∃ r : LockFundsResult,
      EscrowClient.lockFunds c sender toolId maxFee authToken expires res =
        Except.ok (EscrowClient.lockFundsMsg toolId maxFee authToken expires, r)
      ∧ r.escrowId = some n := by
  have h1 := lastVal_of_filter "escrow_id" (wasmAttrs res.events) ⟨"escrow_id", s⟩ hfilter
  have hparse : parseIntJs s = some n := by
    unfold parseIntJs
    rw [hs1, hs2]
    simp only [Bool.not_false, Bool.and_self, if_true]
    rw [hval]
    unfold roundToDouble
    rw [if_pos hn]
  refine ⟨⟨res.transactionHash, some n, (EscrowClient.extractLockResult res.events).2⟩,
    ?_, rfl⟩
  simp [EscrowClient.lockFunds, EscrowClient.getSigningClient, hc,
    EscrowClient.extractLockResult_eq, h1, hparse]

theorem claim_C3_witness :
    ∃ r : LockFundsResult,
      EscrowClient.lockFunds ⟨true⟩ "alice" "tool1" "1" "tok" 5
          ⟨"HASH", [⟨"wasm", [⟨"escrow_id", "42"⟩]⟩]⟩ =
        Except.ok (EscrowClient.lockFundsMsg "tool1" "1" "tok" 5, r)
      ∧ r.escrowId = some 42 :=
  claim_C3_amended 42 "42" ⟨true⟩ "alice" "tool1" "1" "tok" 5
    ⟨"HASH", [⟨"wasm", [⟨"escrow_id", "42"⟩]⟩]⟩
    rfl (by norm_num) rfl rfl rfl (by decide)

/-- C4: `getTool` returns normally only with the queried tool record (a
query failure is never swallowed), and a query failure whose message
contains `not found` or `No such tool` is rethrown as the error
`Tool <toolId> not found in registry` (single quotes around the id). -/
theorem claim_C4 (toolId : String) (outcome : RegistryClient.QueryOutcome) :
    (∀ r, RegistryClient.getTool toolId outcome = Except.ok r →
      outcome = RegistryClient.QueryOutcome.success r)
    ∧ (∀ m, outcome = RegistryClient.QueryOutcome.failure m →
        (includes m "not found" || includes m "No such tool") = true →
        RegistryClient.getTool toolId outcome =
          Except.error ("Tool \x27" ++ toolId ++ "\x27 not found in registry")) := by
  constructor
  · intro r h
    cases outcome with
    | success r2 =>
      simp only [RegistryClient.getTool, Except.ok.injEq] at h
      rw [h]
    | invalid => simp [RegistryClient.getTool] at h
    | failure m =>
      simp only [RegistryClient.getTool] at h
      split at h <;> simp at h
    | failureNonError s => simp [RegistryClient.getTool] at h
  · intro m hm hcond
    subst hm
    simp [RegistryClient.getTool, hcond]

theorem claim_C4_witness :
    RegistryClient.getTool "t1" (RegistryClient.QueryOutcome.failure "tool not found") =
      Except.error ("Tool \x27t1\x27 not found in registry") :=
  (claim_C4 "t1" (RegistryClient.QueryOutcome.failure "tool not found")).2
    "tool not found" rfl (by decide)

/-- C5 fails as stated: the denomination argument is tested for
JavaScript truthiness, so supplying the (degenerate but specific)
denomination `""` produces the claim-all message `claim_fees` with no
denomination instead of a message carrying `""`. -/
theorem claim_C5_counterexample :
    EscrowClient.claimFees ⟨true⟩ "owner" (some "") ⟨"HASH", []⟩ =
      Except.ok (EscrowExecuteMsg.claim_fees none, "HASH")
    ∧ EscrowExecuteMsg.claim_fees none ≠ EscrowExecuteMsg.claim_fees (some "") := by
  exact ⟨rfl, by decide⟩

/-- C5 (amended): `claimFees` dispatches `claimFeesMsg denom` and returns
the transaction hash; the message carries the supplied denomination
exactly whenever it is nonempty, while an omitted or empty denomination
produces the claim-every-denomination message. -/
theorem claim_C5_amended (c : ClientState) (sender : String) (denom : Option String)
    (res : ExecuteResult) (hc : c.hasExecute = true) :
    EscrowClient.claimFees c sender denom res =
      Except.ok (EscrowClient.claimFeesMsg denom, res.transactionHash)
    ∧ (∀ d : String, d ≠ "" →
        EscrowClient.claimFeesMsg (some d) = EscrowExecuteMsg.claim_fees (some d))
    ∧ EscrowClient.claimFeesMsg none = EscrowExecuteMsg.claim_fees none
    ∧ EscrowClient.claimFeesMsg (some "") = EscrowExecuteMsg.claim_fees none := by
  refine ⟨?_, ?_, rfl, rfl⟩
  · simp [EscrowClient.claimFees, EscrowClient.getSigningClient, hc]
  · intro d hd
    simp [EscrowClient.claimFeesMsg, hd]

theorem claim_C5_witness :
    EscrowClient.claimFees ⟨true⟩ "owner" (some "untrn") ⟨"HASH", []⟩ =
      Except.ok (EscrowExecuteMsg.claim_fees (some "untrn"), "HASH") := by
  have h := claim_C5_amended ⟨true⟩ "owner" (some "untrn") ⟨"HASH", []⟩ rfl
  rw [h.1, h.2.1 "untrn" (by decide)]

/-- C6: the caller-supplied `maxFee` string is placed verbatim into the
`max_fee` field of the `lock_funds` message and the `usageFee` string
verbatim into the `usage_fee` field of the `release` message: the
dispatched messages are built from the argument strings themselves, with
no numeric conversion. -/
theorem claim_C6 (c : ClientState) (sender toolId maxFee authToken usageFee : String)
    (expires escrowId : Nat) (res : ExecuteResult) (hc : c.hasExecute = true) :
    (∃ r, EscrowClient.lockFunds c sender toolId maxFee authToken expires res =
        Except.ok (EscrowExecuteMsg.lock_funds toolId maxFee authToken expires, r))
    ∧ EscrowClient.releaseFunds c sender escrowId usageFee res =
        Except.ok (EscrowExecuteMsg.release escrowId usageFee, res.transactionHash) := by
  constructor
  · refine ⟨⟨res.transactionHash, (EscrowClient.extractLockResult res.events).1,
      (EscrowClient.extractLockResult res.events).2⟩, ?_⟩
    simp [EscrowClient.lockFunds, EscrowClient.getSigningClient,
      EscrowClient.lockFundsMsg, hc]
  · simp [EscrowClient.releaseFunds, EscrowClient.getSigningClient, hc]

theorem claim_C6_witness :
    EscrowClient.releaseFunds ⟨true⟩ "provider" 1
        "340282366920938463463374607431768211455" ⟨"HASH", []⟩ =
      Except.ok
        (EscrowExecuteMsg.release 1 "340282366920938463463374607431768211455",
         "HASH") :=
  (claim_C6 ⟨true⟩ "provider" "tool1" "1000000" "tok"
    "340282366920938463463374607431768211455" 5 1 ⟨"HASH", []⟩ rfl).2

/-- C7: `refundExpired` dispatches the message `refund_expired` carrying
exactly the given escrow identifier and returns the transaction hash; its
behaviour does not depend on the sender address in any way, so any
address may invoke it. -/
theorem claim_C7 (c : ClientState) (sender sender2 : String) (escrowId : Nat)
    (res : ExecuteResult) (hc : c.hasExecute = true) :
    EscrowClient.refundExpired c sender escrowId res =
      Except.ok (EscrowExecuteMsg.refund_expired escrowId, res.transactionHash)
    ∧ EscrowClient.refundExpired c sender escrowId res =
      EscrowClient.refundExpired c sender2 escrowId res := by
  refine ⟨?_, rfl⟩
  simp [EscrowClient.refundExpired, EscrowClient.getSigningClient, hc]

theorem claim_C7_witness :
    EscrowClient.refundExpired ⟨true⟩ "anyone" 9 ⟨"HASH", []⟩ =
      Except.ok (EscrowExecuteMsg.refund_expired 9, "HASH")
    ∧ EscrowClient.refundExpired ⟨true⟩ "anyone" 9 ⟨"HASH", []⟩ =
      EscrowClient.refundExpired ⟨true⟩ "someone-else" 9 ⟨"HASH", []⟩ :=
  claim_C7 ⟨true⟩ "anyone" "someone-else" 9 ⟨"HASH", []⟩ rfl

/-- C8: every state-changing client method, on a client constructed from
a non-signing client (no `execute` member), fails with the error
`This method requires a signing client` and dispatches no message. -/
theorem claim_C8 (c : ClientState) (h : c.hasExecute = false)
    (sender toolId maxFee authToken price usageFee : String)
    (expires escrowId : Nat) (denom : Option String) (res : ExecuteResult) :
    EscrowClient.lockFunds c sender toolId maxFee authToken expires res =
      Except.error "This method requires a signing client"
    ∧ EscrowClient.releaseFunds c sender escrowId usageFee res =
      Except.error "This method requires a signing client"
    ∧ EscrowClient.refundExpired c sender escrowId res =
      Except.error "This method requires a signing client"
    ∧ EscrowClient.claimFees c sender denom res =
      Except.error "This method requires a signing client"
    ∧ RegistryClient.registerTool c sender toolId price res =
      Except.error "This method requires a signing client"
    ∧ RegistryClient.updatePrice c sender toolId price res =
      Except.error "This method requires a signing client"
    ∧ RegistryClient.pauseTool c sender toolId res =
      Except.error "This method requires a signing client"
    ∧ RegistryClient.resumeTool c sender toolId res =
      Except.error "This method requires a signing client" := by
  refine ⟨?_, ?_, ?_, ?_, ?_, ?_, ?_, ?_⟩ <;>
    simp [EscrowClient.lockFunds, EscrowClient.releaseFunds,
      EscrowClient.refundExpired, EscrowClient.claimFees,
      RegistryClient.registerTool, RegistryClient.updatePrice,
      RegistryClient.pauseTool, RegistryClient.resumeTool,
      EscrowClient.getSigningClient, RegistryClient.getSigningClient, h]

theorem claim_C8_witness :
    EscrowClient.lockFunds ⟨false⟩ "alice" "tool1" "1" "tok" 5 ⟨"HASH", []⟩ =
      Except.error "This method requires a signing client"
    ∧ EscrowClient.releaseFunds ⟨false⟩ "alice" 1 "1" ⟨"HASH", []⟩ =
      Except.error "This method requires a signing client"
    ∧ EscrowClient.refundExpired ⟨false⟩ "alice" 1 ⟨"HASH", []⟩ =
      Except.error "This method requires a signing client"
    ∧ EscrowClient.claimFees ⟨false⟩ "alice" none ⟨"HASH", []⟩ =
      Except.error "This method requires a signing client"
    ∧ RegistryClient.registerTool ⟨false⟩ "alice" "tool1" "1" ⟨"HASH", []⟩ =
      Except.error "This method requires a signing client"
    ∧ RegistryClient.updatePrice ⟨false⟩ "alice" "tool1" "1" ⟨"HASH", []⟩ =
      Except.error "This method requires a signing client"
    ∧ RegistryClient.pauseTool ⟨false⟩ "alice" "tool1" ⟨"HASH", []⟩ =
      Except.error "This method requires a signing client"
    ∧ RegistryClient.resumeTool ⟨false⟩ "alice" "tool1" ⟨"HASH", []⟩ =
      Except.error "This method requires a signing client" :=
  claim_C8 ⟨false⟩ rfl "alice" "tool1" "1" "tok" "1" "1" 5 1 none ⟨"HASH", []⟩

/-- C9: `normalizeError` is total and idempotent: it always returns a
`PayPerToolError` whose message is the message of the input when the
input has one and the default message otherwise; an input that is already
a `PayPerToolError` is returned unchanged, so normalizing twice equals
normalizing once. -/
theorem claim_C9 (e : JsValue) (d : String) :
    (normalizeError e d).message = (jsMessage e).getD d
    ∧ (∀ p : PayPerToolError, e = JsValue.pptError p → normalizeError e d = p)
    ∧ normalizeError (JsValue.pptError (normalizeError e d)) d = normalizeError e d := by
  refine ⟨?_, ?_, rfl⟩
  · cases e with
    | pptError p => rfl
    | errWithMessage m =>
      simp only [normalizeError, jsMessage, Option.getD_some]
      split
      · rfl
      · split
        · rfl
        · split
          · rfl
          · rfl
    | noMessage =>
      simp only [normalizeError, jsMessage, Option.getD_none]
      split
      · rfl
      · split
        · rfl
        · split
          · rfl
          · rfl
  · intro p hp
    subst hp
    rfl

theorem claim_C9_witness :
    (normalizeError (JsValue.errWithMessage "network down") "Unknown error").message
        = "network down"
    ∧ normalizeError
        (JsValue.pptError (normalizeError JsValue.noMessage "Unknown error"))
        "Unknown error"
      = normalizeError JsValue.noMessage "Unknown error"
    ∧ normalizeError (JsValue.pptError ⟨"WalletError", "m", "WALLET_ERROR"⟩)
        "Unknown error" = ⟨"WalletError", "m", "WALLET_ERROR"⟩ :=
  ⟨(claim_C9 (JsValue.errWithMessage "network down") "Unknown error").1,
   (claim_C9 JsValue.noMessage "Unknown error").2.2,
   (claim_C9 (JsValue.pptError ⟨"WalletError", "m", "WALLET_ERROR"⟩)
     "Unknown error").2.1 ⟨"WalletError", "m", "WALLET_ERROR"⟩ rfl⟩

/-- C10 fails as stated: when the result has no wasm `escrow_id`
attribute the method indeed returns `escrowId = 0` without failing, but
`denom` is set independently, so a result carrying a wasm `denom`
attribute and no `escrow_id` attribute yields a defined `denom`, not
`undefined`. -/
theorem claim_C10_counterexample :
    EscrowClient.lockFunds ⟨true⟩ "alice" "tool1" "1" "tok" 5
        ⟨"HASH", [⟨"wasm", [⟨"denom", "untrn"⟩]⟩]⟩ =
      Except.ok (EscrowClient.lockFundsMsg "tool1" "1" "tok" 5,
        ⟨"HASH", some 0, some "untrn"⟩)
    ∧ (wasmAttrs [⟨"wasm", [⟨"denom", "untrn"⟩]⟩]).filter
        (fun a => a.key == "escrow_id") = []
    ∧ (some "untrn" : Option String) ≠ none := by
  exact ⟨rfl, rfl, by decide⟩

/-- C10 (amended): a successful `lockFunds` never fails on missing
attributes: it returns the transaction hash together with `escrowId`
equal to the parsed value of the last wasm `escrow_id` attribute (`0`
when there is none) and `denom` equal to the value of the last wasm
`denom` attribute (`undefined` when there is none); in particular, with
several occurrences the last one in event order wins. -/
theorem claim_C10_amended (c : ClientState) (sender toolId maxFee authToken : String)
    (expires : Nat) (res : ExecuteResult) (hc : c.hasExecute = true) :
    EscrowClient.lockFunds c sender toolId maxFee authToken expires res =
      Except.ok (EscrowClient.lockFundsMsg toolId maxFee authToken expires,
        ⟨res.transactionHash,
         (match lastVal "escrow_id" (wasmAttrs res.events) with
          | some v => parseIntJs v
          | none => some 0),
         lastVal "denom" (wasmAttrs res.events)⟩) := by
  simp [EscrowClient.lockFunds, EscrowClient.getSigningClient, hc,
    EscrowClient.extractLockResult_eq]

theorem claim_C10_witness :
    EscrowClient.lockFunds ⟨true⟩ "alice" "tool1" "1" "tok" 5
        ⟨"HASH", [⟨"wasm", [⟨"escrow_id", "8"⟩, ⟨"denom", "uatom"⟩,
                            ⟨"escrow_id", "9"⟩]⟩,
                  ⟨"wasm", [⟨"denom", "untrn"⟩]⟩]⟩ =
      Except.ok (EscrowClient.lockFundsMsg "tool1" "1" "tok" 5,
        ⟨"HASH", some 9, some "untrn"⟩) := by
  have h := claim_C10_amended ⟨true⟩ "alice" "tool1" "1" "tok" 5
    ⟨"HASH", [⟨"wasm", [⟨"escrow_id", "8"⟩, ⟨"denom", "uatom"⟩,
                        ⟨"escrow_id", "9"⟩]⟩,
              ⟨"wasm", [⟨"denom", "untrn"⟩]⟩]⟩ rfl
  exact h
